import Mathlib

/-
Shallow embedding of the jd-vector skill/question resolution pipeline.

Sources embedded here:
  * src/src/lib/vectorSearch.ts (second revision in the file): normalizeSkillName,
    getSkillAliases, storeSkillAliases, calculateTextSimilarity, levenshteinDistance,
    searchSimilarQuestions, searchQuestionsBySkill, getQuestionsBySkillId,
    getQuestionsWithConfidence, searchSkillsForJobDescription.
  * src/src/app/api/jd/process/[id]/route.ts: normalizeSkillName, getSkillAliases,
    calculateTextSimilarity (static-table copy), POST, startAnalysis,
    processSkillsSequentially, processSkillQuestions.
  * src/src/app/api/jd/analyze/route.ts: POST (JD-reuse decision).

JavaScript numbers are modelled as rationals, Math.random() draws as explicit
natural-number parameters, and the embedding / LLM collaborators as oracles.
-/

section JdVector

attribute [local semireducible] Rat.mul Rat.add Rat.inv Rat.sub

/-! ## Character classes and string normalization (normalizeSkillName) -/

/-- JS `\w` character class: `[A-Za-z0-9_]`. -/
def isWordChar (c : Char) : Bool :=
  (decide ('a' ≤ c) && decide (c ≤ 'z')) ||
  (decide ('A' ≤ c) && decide (c ≤ 'Z')) ||
  (decide ('0' ≤ c) && decide (c ≤ '9')) ||
  decide (c = '_')

/-- JS `\s` character class restricted to the ASCII whitespace that can occur here. -/
def isSpaceChar (c : Char) : Bool :=
  decide (c = ' ') || decide (c = '\t') || decide (c = '\n') || decide (c = '\r')

/-- Collapse every maximal run of whitespace into a single space (`replace(/\s+/g, " ")`). -/
def collapseWs : List Char → List Char
  | [] => []
  | [c] => [if isSpaceChar c then ' ' else c]
  | c :: d :: rest =>
    if isSpaceChar c && isSpaceChar d then collapseWs (d :: rest)
    else (if isSpaceChar c then ' ' else c) :: collapseWs (d :: rest)

/-- JS `String.prototype.trim` on a character list. -/
def trimWsL (l : List Char) : List Char :=
  ((l.dropWhile isSpaceChar).reverse.dropWhile isSpaceChar).reverse

/-- `normalizeSkillName` from vectorSearch.ts / process route: lowercase, strip
characters outside `\w` and `\s`, collapse whitespace, trim. -/
def normalizeSkillName (s : String) : String :=
  String.mk (trimWsL (collapseWs ((s.data.map Char.toLower).filter
    (fun c => isWordChar c || isSpaceChar c))))

/-- JS `String.prototype.trim` on a string. -/
def trimStr (s : String) : String := String.mk (trimWsL s.data)

/-- JS `String.prototype.toLowerCase` (ASCII fragment). -/
def lowerStr (s : String) : String := String.mk (s.data.map Char.toLower)

/-! ## Substring containment (JS `includes`) -/

/-- Whether `needle` occurs at the head of `hay`. -/
def startsWithL : List Char → List Char → Bool
  | [], _ => true
  | _ :: _, [] => false
  | a :: as, b :: bs => decide (a = b) && startsWithL as bs

/-- JS `hay.includes(needle)`: `needle` occurs contiguously inside `hay`. -/
def containsSub (hay needle : List Char) : Bool :=
  match hay with
  | [] => needle.isEmpty
  | _ :: rest => startsWithL needle hay || containsSub rest needle

/-! ## Levenshtein distance (vectorSearch.ts `levenshteinDistance`) -/

/-- Entry `matrix[i][j]` of the dynamic program in `levenshteinDistance`:
edit distance between the length-`i` front of `s2` and the length-`j` front of `s1`.
The extra first argument is structural recursion fuel; any value above `i + j`
computes the matrix entry. -/
def levMat (s2 s1 : List Char) : Nat → Nat → Nat → Nat
  | 0, _, _ => 0
  | _ + 1, 0, j => j
  | _ + 1, i + 1, 0 => i + 1
  | f + 1, i + 1, j + 1 =>
    if s2.getD i ' ' = s1.getD j ' ' then levMat s2 s1 f i j
    else min (levMat s2 s1 f i j + 1)
         (min (levMat s2 s1 f (i + 1) j + 1) (levMat s2 s1 f i (j + 1) + 1))

/-- `levenshteinDistance(str1, str2)`: the final matrix entry; the fuel passed is
always sufficient, so this is the matrix value `matrix[len2][len1]`. -/
def levenshteinDistance (str1 str2 : String) : Nat :=
  levMat str2.data str1.data (str2.data.length + str1.data.length + 1)
    str2.data.length str1.data.length

/-! ## Static alias table (process route `getSkillAliases`) -/

/-- The literal `mappings` table from the process route handler. -/
def aliasMappings : List (String × List String) :=
  [("react", ["reactjs", "react js", "react.js"]),
   ("reactjs", ["react", "react js", "react.js"]),
   ("react js", ["react", "reactjs", "react.js"]),
   ("react.js", ["react", "reactjs", "react js"]),
   ("nextjs", ["next js", "next.js", "nextjs", "next"]),
   ("next js", ["nextjs", "next.js", "next"]),
   ("next.js", ["nextjs", "next js", "next"]),
   ("next", ["nextjs", "next js", "next.js"]),
   ("nodejs", ["node js", "node.js", "node"]),
   ("node js", ["nodejs", "node.js", "node"]),
   ("node.js", ["nodejs", "node js", "node"]),
   ("node", ["nodejs", "node js", "node.js"])]

/-- First-occurrence deduplication, the effect of `[...new Set(xs)]`. -/
def dedupKeepFirst (seen : List String) : List String → List String
  | [] => []
  | x :: xs =>
    if seen.contains x then dedupKeepFirst seen xs
    else x :: dedupKeepFirst (x :: seen) xs

/-- Body of the route handler's `getSkillAliases` as a function of the already
normalized name. -/
def routeAliasesOfNorm (normalized : String) : List String :=
  let aliases := [normalized]
  let aliases :=
    match aliasMappings.lookup normalized with
    | some vs => aliases ++ vs
    | none => aliases
  let aliases := aliasMappings.foldl
    (fun acc kv =>
      if kv.2.contains normalized && !acc.contains kv.1 then acc ++ [kv.1] else acc)
    aliases
  dedupKeepFirst [] aliases

/-- `getSkillAliases` from the process route handler (static table only). -/
def getSkillAliasesRoute (skillName : String) : List String :=
  routeAliasesOfNorm (normalizeSkillName skillName)

/-- Whether a normalized name is one of the static table's keys. -/
def isFamilyKey (n : String) : Bool :=
  aliasMappings.any (fun kv => decide (kv.1 = n))

/-! ## Text similarity: the two implementations and the spec formula -/

/-- `calculateTextSimilarity(str1, str2)` from the process route handler. -/
def calculateTextSimilarityRoute (str1 str2 : String) : ℚ :=
  let norm1 := normalizeSkillName str1
  let norm2 := normalizeSkillName str2
  if norm1 = norm2 then 1
  else
    let aliases1 := getSkillAliasesRoute str1
    let aliases2 := getSkillAliasesRoute str2
    if aliases1.any (fun a1 => aliases2.contains a1) then 19/20
    else if containsSub norm1.data norm2.data || containsSub norm2.data norm1.data then
      let longer := if norm1.length > norm2.length then norm1 else norm2
      let shorter := if norm1.length > norm2.length then norm2 else norm1
      ((shorter.length : ℚ) / (longer.length : ℚ)) * (9/10)
    else 0

/-- The Levenshtein-based ratio `(maxLen - distance) / maxLen` computed by the
library `calculateTextSimilarity` on normalized forms. -/
def levRatio (str1 str2 : String) : ℚ :=
  let norm1 := normalizeSkillName str1
  let norm2 := normalizeSkillName str2
  let maxLen := max norm1.length norm2.length
  ((maxLen - levenshteinDistance norm1 norm2 : ℕ) : ℚ) / (maxLen : ℚ)

/-- `calculateTextSimilarity(extractedSkill, existingSkill)` from vectorSearch.ts,
with the resolved alias list of the extracted skill passed explicitly (in the
source it is produced by the effectful `getSkillAliases`). -/
def textSimWithAliases (aliases : List String) (extractedSkill existingSkill : String) : ℚ :=
  let norm1 := normalizeSkillName extractedSkill
  let norm2 := normalizeSkillName existingSkill
  if norm1 = norm2 then 1
  else if aliases.any (fun a => normalizeSkillName a = norm2) then 19/20
  else if containsSub norm1.data norm2.data || containsSub norm2.data norm1.data then
    let longer := if norm1.length > norm2.length then norm1 else norm2
    let shorter := if norm1.length > norm2.length then norm2 else norm1
    ((shorter.length : ℚ) / (longer.length : ℚ)) * (9/10)
  else
    let maxLen := max norm1.length norm2.length
    if maxLen = 0 then 1
    else
      let sim := ((maxLen - levenshteinDistance norm1 norm2 : ℕ) : ℚ) / (maxLen : ℚ)
      if 7/10 ≤ sim then sim * (4/5) else 0

/-- Modelled from the spec: the §4.3 text/alias score exactly as the claim words it —
1.0 on identical normalized forms, 0.95 when the existing skill's normalized name
appears in the extracted skill's alias set, the scaled length ratio on substring
containment, and 0 in every other case. -/
def specTextSimilarity (aliases : List String) (extractedSkill existingSkill : String) : ℚ :=
  let norm1 := normalizeSkillName extractedSkill
  let norm2 := normalizeSkillName existingSkill
  if norm1 = norm2 then 1
  else if aliases.contains norm2 then 19/20
  else if containsSub norm1.data norm2.data || containsSub norm2.data norm1.data then
    let longer := if norm1.length > norm2.length then norm1 else norm2
    let shorter := if norm1.length > norm2.length then norm2 else norm1
    ((shorter.length : ℚ) / (longer.length : ℚ)) * (9/10)
  else 0

/-! ## Question store, vector search, and getQuestionsWithConfidence -/

/-- A persisted Question row joined with its skill's name (the prisma
`include: { skill: { select: { name } } }` shape); the embedding itself only ever
feeds the cosine-similarity collaborator, modelled as an oracle below. -/
structure StoredQuestion where
  id : Int
  text : String
  skillId : Int
  skillName : String
deriving DecidableEq

/-- The `SimilarQuestion` interface of vectorSearch.ts. -/
structure SimilarQuestion where
  id : Int
  text : String
  skillId : Int
  skillName : String
  similarity : ℚ
deriving DecidableEq

/-- Provenance tags of `QuestionWithConfidence.source`. -/
inductive QSource where
  | existing
  | similar
  | generated
deriving DecidableEq

/-- The `QuestionWithConfidence` interface of vectorSearch.ts. -/
structure QuestionWithConfidence extends SimilarQuestion where
  needsGeneration : Bool
  source : QSource
deriving DecidableEq

/-- Stable insert keeping strictly-larger similarities in front: the effect of the
JS stable `sort((a, b) => b.similarity - a.similarity)` on one element. -/
def insertDescBySim (q : SimilarQuestion) : List SimilarQuestion → List SimilarQuestion
  | [] => [q]
  | b :: bs =>
    if q.similarity < b.similarity then b :: insertDescBySim q bs else q :: b :: bs

/-- Stable descending-by-similarity sort (JS `Array.prototype.sort` is stable). -/
def sortDescBySim : List SimilarQuestion → List SimilarQuestion
  | [] => []
  | x :: xs => insertDescBySim x (sortDescBySim xs)

/-- `searchSimilarQuestions(query, limit, minSimilarity)` from vectorSearch.ts.
`embedSim query q` stands for `cosineSimilarity(getEmbedding(query), q.embedding)`,
the composition of the embedding collaborator with cosine similarity. -/
def searchSimilarQuestions (embedSim : String → StoredQuestion → ℚ)
    (store : List StoredQuestion) (query : String) (limit : Nat) (minSimilarity : ℚ) :
    List SimilarQuestion :=
  (sortDescBySim ((store.map (fun q =>
      ({ id := q.id, text := q.text, skillId := q.skillId, skillName := q.skillName,
         similarity := embedSim query q } : SimilarQuestion))).filter
      (fun q => decide (minSimilarity ≤ q.similarity)))).take limit

/-- The search query string built by `searchQuestionsBySkill`. -/
def searchQueryFor (skillName : String) : String :=
  skillName ++ " interview questions technical skills assessment"

/-- `searchQuestionsBySkill(skillName, limit, minSimilarity)` from vectorSearch.ts. -/
def searchQuestionsBySkill (embedSim : String → StoredQuestion → ℚ)
    (store : List StoredQuestion) (skillName : String) (limit : Nat) (minSimilarity : ℚ) :
    List SimilarQuestion :=
  searchSimilarQuestions embedSim store (searchQueryFor skillName) limit minSimilarity

/-- `getQuestionsBySkillId(skillId, limit)` from vectorSearch.ts: direct rows under
the skill, similarity pinned at 1.0. -/
def getQuestionsBySkillId (store : List StoredQuestion) (skillId : Int) (limit : Nat) :
    List SimilarQuestion :=
  ((store.filter (fun q => decide (q.skillId = skillId))).take limit).map (fun q =>
    { id := q.id, text := q.text, skillId := q.skillId, skillName := q.skillName,
      similarity := 1 })

/-- `Math.floor(Math.random() * 6) + 2` with the draw `r ∈ [0, 5]` made explicit. -/
def existingCountOf (r : Nat) : Nat := r + 2

/-- The `allAvailableQuestions` fetch in `getQuestionsWithConfidence` (up to 50). -/
def allAvailableQuestions (store : List StoredQuestion) (skillId : Int) :
    List SimilarQuestion :=
  getQuestionsBySkillId store skillId 50

/-- `uniqueVectorQuestions`: vector-search results excluding the queried skill. -/
def uniqueVectorQuestions (embedSim : String → StoredQuestion → ℚ)
    (store : List StoredQuestion) (skillName : String) (skillId : Int) :
    List SimilarQuestion :=
  (searchQuestionsBySkill embedSim store skillName 30 (3/5)).filter
    (fun vq => decide (vq.skillId ≠ skillId))

/-- Tag a direct question as a tier-1 result (`source: "existing"`). -/
def toExistingEntry (q : SimilarQuestion) : QuestionWithConfidence :=
  { toSimilarQuestion := q, needsGeneration := false, source := QSource.existing }

/-- Tag a vector-search question as the code does: `needsGeneration: true`,
`source: "generated"`. -/
def toVectorEntry (q : SimilarQuestion) : QuestionWithConfidence :=
  { toSimilarQuestion := q, needsGeneration := true, source := QSource.generated }

/-- The `i`-th placeholder row pushed when vector questions run out. -/
def placeholderEntry (skillName : String) (skillId : Int) (i : Nat) :
    QuestionWithConfidence :=
  { id := -1, text := "Generated question " ++ toString (i + 1) ++ " needed",
    skillId := skillId, skillName := skillName, similarity := 0,
    needsGeneration := true, source := QSource.generated }

/-- `selectedExisting` in `getQuestionsWithConfidence`: the first
`existingCount` direct questions, tagged `"existing"`. -/
def selectedExistingEntries (r : Nat) (store : List StoredQuestion) (skillId : Int) :
    List QuestionWithConfidence :=
  ((allAvailableQuestions store skillId).take (existingCountOf r)).map toExistingEntry

/-- `vectorQuestionsToUse` in `getQuestionsWithConfidence`: vector-search questions
from other skills filling the remaining slots. -/
def tier2Entries (r : Nat) (embedSim : String → StoredQuestion → ℚ)
    (store : List StoredQuestion) (skillName : String) (skillId : Int) (limit : Nat) :
    List QuestionWithConfidence :=
  let res1 := selectedExistingEntries r store skillId
  let remainingSlots := limit - res1.length
  if 0 < remainingSlots then
    ((uniqueVectorQuestions embedSim store skillName skillId).take remainingSlots).map
      toVectorEntry
  else []

/-- The placeholder rows appended after the vector questions run out. -/
def placeholderEntries (r : Nat) (embedSim : String → StoredQuestion → ℚ)
    (store : List StoredQuestion) (skillName : String) (skillId : Int) (limit : Nat) :
    List QuestionWithConfidence :=
  let res1 := selectedExistingEntries r store skillId
  let remainingSlots := limit - res1.length
  if 0 < remainingSlots then
    let used := ((uniqueVectorQuestions embedSim store skillName skillId).take
      remainingSlots).length
    (List.range (remainingSlots - used)).map (placeholderEntry skillName skillId)
  else []

/-- `getQuestionsWithConfidence(skillName, skillId, limit)` from vectorSearch.ts,
with the random draw `r` (for `existingCount = r + 2`) and the embedding
collaborator passed explicitly. -/
def getQuestionsWithConfidence (r : Nat) (embedSim : String → StoredQuestion → ℚ)
    (store : List StoredQuestion) (skillName : String) (skillId : Int) (limit : Nat) :
    List QuestionWithConfidence :=
  selectedExistingEntries r store skillId
    ++ tier2Entries r embedSim store skillName skillId limit
    ++ placeholderEntries r embedSim store skillName skillId limit

/-! ## processSkillQuestions (process route) -/

/-- The `existingQuestions` fetch of `processSkillQuestions`: at most 7 rows. -/
def processSkillExisting (store : List StoredQuestion) (skillId : Int) :
    List StoredQuestion :=
  (store.filter (fun q => decide (q.skillId = skillId))).take 7

/-- `needToGenerate = Math.max(0, targetQuestions - existingQuestions.length)` with
`targetQuestions = 10` (Nat subtraction models the `max(0, ·)`). -/
def processSkillNeedToGenerate (store : List StoredQuestion) (skillId : Int) : Nat :=
  10 - (processSkillExisting store skillId).length

/-- Number of question-generation LLM calls `processSkillQuestions` issues. -/
def processSkillGenerationCalls (store : List StoredQuestion) (skillId : Int) : Nat :=
  if 0 < processSkillNeedToGenerate store skillId then 1 else 0

/-! ## Orchestrator state machine (process route POST / startAnalysis) -/

/-- `JobDescription.status` values. -/
inductive JDStatus where
  | pending
  | inProgress
  | completed
  | failed
deriving DecidableEq

/-- The analysis-tracking fields of a JobDescription row. -/
structure JDRec where
  status : JDStatus
  skillsAnalyzed : Nat
  totalSkills : Nat
deriving DecidableEq

/-- The POST handler's guard plus `startAnalysis`'s first update: IN_PROGRESS and
COMPLETED return early; any other status starts analysis, which resets the row to
IN_PROGRESS with zeroed progress. The boolean reports whether analysis work was
(re)started. -/
def postStartAnalysis (jd : JDRec) : JDRec × Bool :=
  match jd.status with
  | JDStatus.inProgress => (jd, false)
  | JDStatus.completed => (jd, false)
  | _ => ({ status := JDStatus.inProgress, skillsAnalyzed := 0, totalSkills := 0 }, true)

/-- The per-skill loop of `processSkillsSequentially`: each index is attempted in
order; a throwing skill (`failsAt i`) is caught and skipped, a successful one sets
`skillsAnalyzed := i + 1`; afterwards the row is marked COMPLETED. -/
def processSkillsSequentially (failsAt : Nat → Bool) (n : Nat) (jd : JDRec) : JDRec :=
  { status := JDStatus.completed,
    skillsAnalyzed :=
      (List.range n).foldl (fun sa i => if failsAt i then sa else i + 1) jd.skillsAnalyzed,
    totalSkills := jd.totalSkills }

/-- `startAnalysis` status behaviour: reset to IN_PROGRESS; a throw in the
pre-loop phases (JD-similarity search, skill extraction, skill matching) marks the
row FAILED; otherwise `totalSkills` is set and the sequential loop runs. -/
def startAnalysisRun (preLoopFails : Bool) (failsAt : Nat → Bool) (n : Nat)
    (jd : JDRec) : JDRec :=
  let jd1 : JDRec := { status := JDStatus.inProgress, skillsAnalyzed := 0, totalSkills := 0 }
  if preLoopFails then { jd1 with status := JDStatus.failed }
  else processSkillsSequentially failsAt n { jd1 with totalSkills := n }

/-! ## JD-reuse decisions (startAnalysis and the analyze route) -/

/-- One result of `searchSimilarJobDescriptions`, keeping the fields the reuse
decisions read. -/
structure SimilarJD where
  id : Int
  similarity : ℚ
deriving DecidableEq

/-- The `skillsMatch` validation loop of `startAnalysis`: some extracted skill
must text-match some skill of the candidate JD with similarity ≥ 0.9. -/
def skillsMatchCheck (extractedSkills existingSkillNames : List String) : Bool :=
  extractedSkills.any (fun e => existingSkillNames.any (fun ex =>
    decide ((9 : ℚ)/10 ≤ calculateTextSimilarityRoute e ex)))

/-- The `useExistingSkills` decision of `startAnalysis`: top similar JD at ≥ 0.95
and the validation loop passes. -/
def decideReuse (similarJDs : List SimilarJD) (extractedSkills existingSkillNames : List String) :
    Bool :=
  match similarJDs with
  | [] => false
  | top :: _ =>
    decide ((19 : ℚ)/20 ≤ top.similarity) && skillsMatchCheck extractedSkills existingSkillNames

/-- Which branch `startAnalysis` takes for its skill set. -/
inductive SkillsSource where
  | reuseExisting
  | fullExtraction
deriving DecidableEq

/-- The skill-set branch chosen by `startAnalysis`. -/
def startAnalysisSkillsPath (similarJDs : List SimilarJD)
    (extractedSkills existingSkillNames : List String) : SkillsSource :=
  if decideReuse similarJDs extractedSkills existingSkillNames then SkillsSource.reuseExisting
  else SkillsSource.fullExtraction

/-- The analyze route's reuse decision: top similar JD at ≥ 0.9, with no
extracted-skill validation at all. -/
def analyzeRouteReuse (similarJDs : List SimilarJD) : Bool :=
  match similarJDs with
  | [] => false
  | top :: _ => decide ((9 : ℚ)/10 ≤ top.similarity)

/-- The analyze route's skill set: when reusing, the stored JD's skills are
returned as-is (`some`), otherwise extraction proceeds (`none`). -/
def analyzeRouteSkillSet (similarJDs : List SimilarJD) (storedSkillNames : List String) :
    Option (List String) :=
  if analyzeRouteReuse similarJDs then some storedSkillNames else none

/-- The `extractedSkills.slice(0, Math.floor(Math.random() * 3) + 8)` cap in
`startAnalysis`, with the draw `r ∈ [0, 2]` explicit. -/
def sliceExtractedSkills (r : Nat) (skills : List String) : List String :=
  skills.take (r + 8)

/-! ## Skill matcher with its store side effects (vectorSearch.ts) -/

/-- A Skill row. -/
structure SkillRow where
  id : Nat
  name : String
deriving DecidableEq

/-- A SkillAlias row. -/
structure SkillAliasRow where
  skillId : Nat
  aliasText : String
deriving DecidableEq

/-- The mutable state the matcher touches: the Skill and SkillAlias tables, the
process-wide in-memory `aliasCache`, and the id sequence for created skills. -/
structure MatcherState where
  skills : List SkillRow
  aliasRows : List SkillAliasRow
  cache : List (String × List String)
  nextId : Nat
deriving DecidableEq

/-- Prisma `mode: "insensitive"` string equality. -/
def insensitiveEq (a b : String) : Bool := decide (lowerStr a = lowerStr b)

/-- The in-memory `aliasCache` lookup. -/
def cacheLookup (cache : List (String × List String)) (key : String) :
    Option (List String) :=
  (cache.find? (fun kv => decide (kv.1 = key))).map (fun kv => kv.2)

/-- One `skillAlias.upsert` of `storeSkillAliases`: skip empty or
canonical-name-equal aliases, insert when the (skillId, alias) pair is new. -/
def addAliasRow (skillId : Nat) (skillNameNorm alias0 : String) (st : MatcherState) :
    MatcherState :=
  let na := normalizeSkillName alias0
  if na ≠ "" ∧ na ≠ skillNameNorm then
    if st.aliasRows.any (fun ar => decide (ar.skillId = skillId) && decide (ar.aliasText = na)) then
      st
    else { st with aliasRows := st.aliasRows ++ [{ skillId := skillId, aliasText := na }] }
  else st

/-- `storeSkillAliases(skillName, aliases)` from vectorSearch.ts: find the skill by
case-insensitive name or create it, then upsert each alias. -/
def storeSkillAliases (skillName : String) (aliases : List String) (st : MatcherState) :
    MatcherState :=
  match st.skills.find? (fun sk => insensitiveEq sk.name skillName) with
  | some sk =>
    aliases.foldl (fun acc a => addAliasRow sk.id (normalizeSkillName sk.name) a acc) st
  | none =>
    let sk : SkillRow := { id := st.nextId, name := skillName }
    let st1 : MatcherState := { st with skills := st.skills ++ [sk], nextId := st.nextId + 1 }
    aliases.foldl (fun acc a => addAliasRow sk.id (normalizeSkillName sk.name) a acc) st1

/-- The `skill.findFirst` of `getSkillAliases`: a skill whose name matches the
input case-insensitively or that owns an alias equal to the normalized input. -/
def dbAliasLookup (st : MatcherState) (skillName normalized : String) : Option SkillRow :=
  st.skills.find? (fun sk =>
    insensitiveEq sk.name skillName ||
    st.aliasRows.any (fun ar => decide (ar.skillId = sk.id) && insensitiveEq ar.aliasText normalized))

/-- `replace(/\s+/g, "")`. -/
def stripSpaces (s : String) : String := String.mk (s.data.filter (fun c => !isSpaceChar c))

/-- `replace(/\./g, "")`. -/
def stripDots (s : String) : String := String.mk (s.data.filter (fun c => decide (c ≠ '.')))

/-- Collapse every maximal whitespace run into the given character. -/
def collapseWsTo (rep : Char) : List Char → List Char
  | [] => []
  | [c] => [if isSpaceChar c then rep else c]
  | c :: d :: rest =>
    if isSpaceChar c && isSpaceChar d then collapseWsTo rep (d :: rest)
    else (if isSpaceChar c then rep else c) :: collapseWsTo rep (d :: rest)

/-- `replace(/\s+/g, ".")`. -/
def spacesToDots (s : String) : String := String.mk (collapseWsTo '.' s.data)

/-- `getSkillAliases(skillName)` from vectorSearch.ts. `ai skillName = some l`
models a successful alias-generation LLM call returning list `l`; `none` models the
call throwing, which takes the mechanical-variations fallback. Returns the alias
list together with the updated state (cache, possibly new Skill/SkillAlias rows). -/
def getSkillAliasesLib (ai : String → Option (List String)) (skillName : String)
    (st : MatcherState) : List String × MatcherState :=
  let normalized := normalizeSkillName skillName
  match cacheLookup st.cache normalized with
  | some al => (al, st)
  | none =>
    let viaDb : Option (List String) :=
      match dbAliasLookup st skillName normalized with
      | some sk =>
        let skAliases := (st.aliasRows.filter (fun ar => decide (ar.skillId = sk.id))).map
          (fun ar => ar.aliasText)
        if 0 < skAliases.length then
          some (dedupKeepFirst []
            (([normalized, trimStr skillName, sk.name] ++ skAliases).map normalizeSkillName))
        else none
      | none => none
    match viaDb with
    | some uniq => (uniq, { st with cache := st.cache ++ [(normalized, uniq)] })
    | none =>
      match ai skillName with
      | some aiList =>
        let aliases := [normalized, trimStr skillName] ++
          (aiList.filter (fun a => 0 < (trimStr a).length)).map normalizeSkillName
        let st1 := storeSkillAliases skillName aliases st
        let uniq := dedupKeepFirst [] aliases
        (uniq, { st1 with cache := st1.cache ++ [(normalized, uniq)] })
      | none =>
        let aliases := [normalized, trimStr skillName] ++
          [lowerStr skillName, stripSpaces skillName, stripDots skillName,
           spacesToDots skillName]
        let uniq := dedupKeepFirst [] aliases
        (uniq, { st with cache := st.cache ++ [(normalized, uniq)] })

/-- The effectful `calculateTextSimilarity(extractedSkill, existingSkill)` of
vectorSearch.ts: resolve the extracted skill's aliases (with side effects), then
score via `textSimWithAliases`. -/
def calculateTextSimilarityLib (ai : String → Option (List String))
    (extractedSkill existingSkill : String) (st : MatcherState) : ℚ × MatcherState :=
  if normalizeSkillName extractedSkill = normalizeSkillName existingSkill then (1, st)
  else
    let p := getSkillAliasesLib ai extractedSkill st
    (textSimWithAliases p.1 extractedSkill existingSkill, p.2)

/-- `source` values of `SkillWithConfidence`. -/
inductive SkSource where
  | existing
  | extracted
deriving DecidableEq

/-- The `SkillWithConfidence` interface of vectorSearch.ts. -/
structure SkillWithConfidence where
  id : Nat
  name : String
  confidence : ℚ
  source : SkSource
deriving DecidableEq

/-- One iteration of the text-similarity pass in `searchSkillsForJobDescription`:
a candidate at score ≥ 0.9 beating the current best replaces it. -/
def textPassStep (ai : String → Option (List String)) (extracted : String)
    (acc : Option SkillWithConfidence × MatcherState) (sk : SkillRow) :
    Option SkillWithConfidence × MatcherState :=
  let p := calculateTextSimilarityLib ai extracted sk.name acc.2
  match acc.1 with
  | none =>
    if (9 : ℚ)/10 ≤ p.1 then
      (some { id := sk.id, name := sk.name, confidence := p.1, source := SkSource.existing }, p.2)
    else (none, p.2)
  | some b =>
    if (9 : ℚ)/10 ≤ p.1 ∧ b.confidence < p.1 then
      (some { id := sk.id, name := sk.name, confidence := p.1, source := SkSource.existing }, p.2)
    else (some b, p.2)

/-- The text-similarity pass over all existing skills. -/
def textPass (ai : String → Option (List String)) (extracted : String)
    (existingSkills : List SkillRow) (st : MatcherState) :
    Option SkillWithConfidence × MatcherState :=
  existingSkills.foldl (textPassStep ai extracted) (none, st)

/-- One iteration of the semantic pass: `skillSim a b` stands for
`cosineSimilarity(getEmbedding(a), getEmbedding(b))`. -/
def semanticPassStep (skillSim : String → String → ℚ) (extracted : String)
    (best : Option SkillWithConfidence) (sk : SkillRow) : Option SkillWithConfidence :=
  let s := skillSim extracted sk.name
  match best with
  | none =>
    if (4 : ℚ)/5 ≤ s then
      some { id := sk.id, name := sk.name, confidence := s, source := SkSource.existing }
    else none
  | some b =>
    let combined := if s < b.confidence then b.confidence else s
    if (4 : ℚ)/5 ≤ s ∧ b.confidence < combined then
      some { id := sk.id, name := sk.name, confidence := s, source := SkSource.existing }
    else some b

/-- The semantic pass over all existing skills (no store side effects). -/
def semanticPass (skillSim : String → String → ℚ) (extracted : String)
    (existingSkills : List SkillRow) (best0 : Option SkillWithConfidence) :
    Option SkillWithConfidence :=
  existingSkills.foldl (semanticPassStep skillSim extracted) best0

/-- The create-or-reread fallback of `searchSkillsForJobDescription`:
`prisma.skill.create` throws exactly when the unique `name` constraint is violated,
in which case `findUnique` re-reads the row; the code's skip branch (create failed
and nothing found) is the `none` output. -/
def createOrFind (extracted : String) (st : MatcherState) :
    Option SkillWithConfidence × MatcherState :=
  if st.skills.any (fun sk => decide (sk.name = extracted)) then
    match st.skills.find? (fun sk => decide (sk.name = extracted)) with
    | some sk =>
      (some { id := sk.id, name := sk.name, confidence := 1, source := SkSource.extracted }, st)
    | none => (none, st)
  else
    (some { id := st.nextId, name := extracted, confidence := 1, source := SkSource.extracted },
     { st with skills := st.skills ++ [{ id := st.nextId, name := extracted }],
               nextId := st.nextId + 1 })

/-- The final decision of `searchSkillsForJobDescription` for one extracted name:
accept the best match at confidence ≥ 0.8, otherwise create/re-read the skill. -/
def acceptOrCreate (b2 : Option SkillWithConfidence) (extracted : String)
    (st : MatcherState) : Option SkillWithConfidence × MatcherState :=
  match b2 with
  | some b => if (4 : ℚ)/5 ≤ b.confidence then (some b, st) else createOrFind extracted st
  | none => createOrFind extracted st

/-- Resolution of one extracted name in `searchSkillsForJobDescription`: text pass,
semantic pass unless a ≥ 0.95 text match exists, then accept at ≥ 0.8 or
create/re-read. -/
def matchOne (ai : String → Option (List String)) (skillSim : String → String → ℚ)
    (extracted : String) (existingSkills : List SkillRow) (st : MatcherState) :
    Option SkillWithConfidence × MatcherState :=
  let p := textPass ai extracted existingSkills st
  let b2 :=
    match p.1 with
    | none => semanticPass skillSim extracted existingSkills p.1
    | some b =>
      if b.confidence < 19/20 then semanticPass skillSim extracted existingSkills p.1
      else p.1
  acceptOrCreate b2 extracted p.2

/-- The per-name loop of `searchSkillsForJobDescription` over a fixed snapshot of
existing skills (the code loads `prisma.skill.findMany()` once per batch). -/
def matchSkillsGo (ai : String → Option (List String)) (skillSim : String → String → ℚ)
    (existingSkills : List SkillRow) :
    List String → MatcherState → List SkillWithConfidence × MatcherState
  | [], st => ([], st)
  | n :: ns, st =>
    let p := matchOne ai skillSim n existingSkills st
    let rest := matchSkillsGo ai skillSim existingSkills ns p.2
    (p.1.toList ++ rest.1, rest.2)

/-- `searchSkillsForJobDescription(jobDescription, extractedSkills)` from
vectorSearch.ts (the job-description text itself is unused by the code). -/
def searchSkillsForJobDescription (ai : String → Option (List String))
    (skillSim : String → String → ℚ) (extractedSkills : List String) (st : MatcherState) :
    List SkillWithConfidence × MatcherState :=
  matchSkillsGo ai skillSim st.skills extractedSkills st

/-! ## Concrete fixtures used by witnesses and counterexamples -/

/-- A store with ten questions under skill 1. -/
def sampleStore10 : List StoredQuestion :=
  (List.range 10).map (fun i => { id := (i : Int), text := "q", skillId := 1, skillName := "alpha" })

/-- A store with seven questions under skill 1. -/
def sampleStore7 : List StoredQuestion :=
  (List.range 7).map (fun i => { id := (i : Int), text := "q", skillId := 1, skillName := "alpha" })

/-- An embedding collaborator that reports similarity 0 everywhere. -/
def zeroEmbedSim : String → StoredQuestion → ℚ := fun _ _ => 0

/-- A store holding one question under skill 1 and one under skill 2. -/
def crossSkillStore : List StoredQuestion :=
  [{ id := 1, text := "a", skillId := 1, skillName := "alpha" },
   { id := 2, text := "b", skillId := 2, skillName := "beta" }]

/-- An embedding collaborator that reports similarity 0.95 everywhere. -/
def highEmbedSim : String → StoredQuestion → ℚ := fun _ _ => 19/20

/-- Ten distinct extracted-skill names. -/
def sampleNames10 : List String := (List.range 10).map (fun i => toString i)

/-- An alias-generation collaborator answering only for "react". -/
def reactAliasAI : String → Option (List String) :=
  fun s => if s = "react" then some ["reactjs"] else none

/-- An embedding collaborator for skill names that reports similarity 0. -/
def zeroSkillSim : String → String → ℚ := fun _ _ => 0

/-- A matcher state holding the single skill "ReactJS" and nothing else. -/
def reactState : MatcherState :=
  { skills := [{ id := 1, name := "ReactJS" }], aliasRows := [], cache := [], nextId := 2 }

/-- The invariant threaded through the text pass for one extracted name: the Skill
table is either untouched or extended by exactly the one row named after the
extracted skill (and in the latter case the alias cache already holds the key, so
no further call can create again). -/
def TextPassInv (orig : MatcherState) (extracted : String) (st : MatcherState) : Prop :=
  (st.skills = orig.skills ∧ st.nextId = orig.nextId) ∨
  (st.skills = orig.skills ++ [{ id := orig.nextId, name := extracted }] ∧
   (cacheLookup st.cache (normalizeSkillName extracted)).isSome)

/-- The accepted match of the C9 scenario: existing skill "ReactJS" at 0.95. -/
def reactBest : SkillWithConfidence :=
  { id := 1, name := "ReactJS", confidence := 19/20, source := SkSource.existing }

/-! ## Helper lemmas -/

theorem mem_insertDescBySim {a q : SimilarQuestion} {l : List SimilarQuestion} :
    a ∈ insertDescBySim q l ↔ a = q ∨ a ∈ l := by
  induction l with
  | nil => simp [insertDescBySim]
  | cons b bs ih =>
    simp only [insertDescBySim]
    split
    · simp only [List.mem_cons, ih]
      tauto
    · simp only [List.mem_cons]

theorem mem_sortDescBySim {a : SimilarQuestion} {l : List SimilarQuestion} :
    a ∈ sortDescBySim l ↔ a ∈ l := by
  induction l with
  | nil => simp [sortDescBySim]
  | cons b bs ih => simp [sortDescBySim, mem_insertDescBySim, ih]

theorem length_selectedExistingEntries (r : Nat) (store : List StoredQuestion) (skillId : Int) :
    (selectedExistingEntries r store skillId).length =
      min (existingCountOf r)
        (min 50 ((store.filter (fun q => decide (q.skillId = skillId))).length)) := by
  simp [selectedExistingEntries, allAvailableQuestions, getQuestionsBySkillId,
    List.length_take]

theorem source_selectedExistingEntries {r : Nat} {store : List StoredQuestion} {skillId : Int}
    {e : QuestionWithConfidence} (h : e ∈ selectedExistingEntries r store skillId) :
    e.source = QSource.existing := by
  simp only [selectedExistingEntries, List.mem_map] at h
  obtain ⟨q, -, rfl⟩ := h
  rfl

theorem source_tier2Entries {r : Nat} {embedSim : String → StoredQuestion → ℚ}
    {store : List StoredQuestion} {skillName : String} {skillId : Int} {limit : Nat}
    {e : QuestionWithConfidence} (h : e ∈ tier2Entries r embedSim store skillName skillId limit) :
    e.source = QSource.generated := by
  simp only [tier2Entries] at h
  split at h
  · simp only [List.mem_map] at h
    obtain ⟨q, -, rfl⟩ := h
    rfl
  · simp at h

theorem source_placeholderEntries {r : Nat} {embedSim : String → StoredQuestion → ℚ}
    {store : List StoredQuestion} {skillName : String} {skillId : Int} {limit : Nat}
    {e : QuestionWithConfidence}
    (h : e ∈ placeholderEntries r embedSim store skillName skillId limit) :
    e.source = QSource.generated := by
  simp only [placeholderEntries] at h
  split at h
  · simp only [List.mem_map] at h
    obtain ⟨q, -, rfl⟩ := h
    rfl
  · simp at h

theorem filter_existing_gqwc (r : Nat) (embedSim : String → StoredQuestion → ℚ)
    (store : List StoredQuestion) (skillName : String) (skillId : Int) (limit : Nat) :
    (getQuestionsWithConfidence r embedSim store skillName skillId limit).filter
        (fun e => decide (e.source = QSource.existing)) =
      selectedExistingEntries r store skillId := by
  unfold getQuestionsWithConfidence
  rw [List.filter_append, List.filter_append]
  rw [List.filter_eq_self.2, List.filter_eq_nil_iff.2, List.filter_eq_nil_iff.2]
  · simp
  · intro e he
    simp [source_placeholderEntries he]
  · intro e he
    simp [source_tier2Entries he]
  · intro e he
    simp [source_selectedExistingEntries he]

theorem filter_generated_gqwc (r : Nat) (embedSim : String → StoredQuestion → ℚ)
    (store : List StoredQuestion) (skillName : String) (skillId : Int) (limit : Nat) :
    (getQuestionsWithConfidence r embedSim store skillName skillId limit).filter
        (fun e => decide (e.source = QSource.generated)) =
      tier2Entries r embedSim store skillName skillId limit
        ++ placeholderEntries r embedSim store skillName skillId limit := by
  unfold getQuestionsWithConfidence
  rw [List.filter_append, List.filter_append]
  rw [List.filter_eq_nil_iff.2, List.filter_eq_self.2, List.filter_eq_self.2]
  · simp
  · intro e he
    simp [source_placeholderEntries he]
  · intro e he
    simp [source_tier2Entries he]
  · intro e he
    simp [source_selectedExistingEntries he]

theorem length_tier2_add_placeholder (r : Nat) (embedSim : String → StoredQuestion → ℚ)
    (store : List StoredQuestion) (skillName : String) (skillId : Int) (limit : Nat) :
    (tier2Entries r embedSim store skillName skillId limit).length
      + (placeholderEntries r embedSim store skillName skillId limit).length =
      limit - (selectedExistingEntries r store skillId).length := by
  simp only [tier2Entries, placeholderEntries]
  split
  · simp only [List.length_map, List.length_take, List.length_range]
    omega
  · simp only [List.length_nil]
    omega

/-! ## Claim theorems -/

/-- Claim C6 (counterexample): a start-analysis request on a FAILED JobDescription is
not a no-op — it restarts analysis, moving the status to IN_PROGRESS and resetting
progress, so FAILED is not an absorbing state. -/
theorem c6_counterexample :
    postStartAnalysis { status := JDStatus.failed, skillsAnalyzed := 3, totalSkills := 5 } =
      ({ status := JDStatus.inProgress, skillsAnalyzed := 0, totalSkills := 0 }, true) ∧
    (postStartAnalysis
        { status := JDStatus.failed, skillsAnalyzed := 3, totalSkills := 5 }).1.status ≠
      JDStatus.failed := by
  decide

/-- Claim C6 (amended): COMPLETED is absorbing for start-analysis requests (the POST
handler returns without touching the row), as is IN_PROGRESS, but a request on a
FAILED JobDescription restarts analysis: the status moves to IN_PROGRESS with
progress reset. -/
theorem c6_amended (a b : Nat) :
    postStartAnalysis { status := JDStatus.completed, skillsAnalyzed := a, totalSkills := b } =
      ({ status := JDStatus.completed, skillsAnalyzed := a, totalSkills := b }, false) ∧
    postStartAnalysis { status := JDStatus.inProgress, skillsAnalyzed := a, totalSkills := b } =
      ({ status := JDStatus.inProgress, skillsAnalyzed := a, totalSkills := b }, false) ∧
    postStartAnalysis { status := JDStatus.failed, skillsAnalyzed := a, totalSkills := b } =
      ({ status := JDStatus.inProgress, skillsAnalyzed := 0, totalSkills := 0 }, true) :=
  ⟨rfl, rfl, rfl⟩

/-- Claim C7: an exception in one skill's question resolution is caught and the loop
continues — whatever the per-skill failure pattern, the run ends COMPLETED and never
FAILED; only a pre-loop failure (JD-similarity search, skill extraction, skill
matching) marks the JobDescription FAILED. Moreover, when the last skill succeeds
the progress counter reaches `n`, showing the loop really continued past earlier
failures. -/
theorem c7_partial_failure_tolerance (failsAt : Nat → Bool) (n : Nat) (jd : JDRec) :
    (startAnalysisRun false failsAt n jd).status = JDStatus.completed ∧
    (startAnalysisRun false failsAt n jd).status ≠ JDStatus.failed ∧
    (startAnalysisRun true failsAt n jd).status = JDStatus.failed ∧
    (0 < n → failsAt (n - 1) = false →
      (startAnalysisRun false failsAt n jd).skillsAnalyzed = n) := by
  refine ⟨rfl, by simp [startAnalysisRun, processSkillsSequentially], rfl, ?_⟩
  intro hn hl
  cases n with
  | zero => omega
  | succ m =>
    simp only [Nat.add_sub_cancel] at hl
    simp [startAnalysisRun, processSkillsSequentially, List.range_succ,
      List.foldl_append, hl]

/-- Claim C7 (witness): with three skills where the first one's question resolution
throws, the analysis still completes, never fails, and processes all three skills. -/
theorem c7_witness :
    (startAnalysisRun false (fun i => decide (i = 0)) 3
        { status := JDStatus.pending, skillsAnalyzed := 0, totalSkills := 0 }).status =
      JDStatus.completed ∧
    (startAnalysisRun false (fun i => decide (i = 0)) 3
        { status := JDStatus.pending, skillsAnalyzed := 0, totalSkills := 0 }).status ≠
      JDStatus.failed ∧
    (startAnalysisRun true (fun i => decide (i = 0)) 3
        { status := JDStatus.pending, skillsAnalyzed := 0, totalSkills := 0 }).status =
      JDStatus.failed ∧
    (startAnalysisRun false (fun i => decide (i = 0)) 3
        { status := JDStatus.pending, skillsAnalyzed := 0, totalSkills := 0 }).skillsAnalyzed = 3 := by
  have h := c7_partial_failure_tolerance (fun i => decide (i = 0)) 3
    { status := JDStatus.pending, skillsAnalyzed := 0, totalSkills := 0 }
  exact ⟨h.1, h.2.1, h.2.2.1, h.2.2.2 (by decide) (by decide)⟩

/-- Claim C8 (counterexample): with seven questions stored under the skill and
`targetCount = 5`, the random draw 5 (`existingCount = 7`) makes
`getQuestionsWithConfidence` return 7 entries — more than `targetCount`, which the
claim ("exactly targetCount, fewer only when similar tier and generation are
exhausted") rules out. -/
theorem c8_counterexample :
    (getQuestionsWithConfidence 5 zeroEmbedSim sampleStore7 "alpha" 1 5).length = 7 := by
  decide

/-- Claim C8 (amended): the output length of `getQuestionsWithConfidence` is exactly
`max targetCount (min (r + 2) (min 50 stored))` where `r + 2` is the random
existing-count draw and `stored` the number of questions under the skill: never
fewer than `targetCount` (placeholders pad any shortfall unconditionally), but
strictly more whenever the draw exceeds `targetCount` and enough questions exist. -/
theorem c8_amended (r : Nat) (embedSim : String → StoredQuestion → ℚ)
    (store : List StoredQuestion) (skillName : String) (skillId : Int) (limit : Nat) :
    (getQuestionsWithConfidence r embedSim store skillName skillId limit).length =
      max limit
        (min (existingCountOf r)
          (min 50 ((store.filter (fun q => decide (q.skillId = skillId))).length))) := by
  have h1 := length_tier2_add_placeholder r embedSim store skillName skillId limit
  have h2 := length_selectedExistingEntries r store skillId
  simp only [getQuestionsWithConfidence, List.length_append]
  omega

/-- Claim C2 (counterexample): two runs of the resolution pipeline on the same input
text, the same collaborator responses, and the same store state produce different
outputs when the hidden `Math.random()` draws differ — both in the per-skill
existing/generated split and in how many extracted skills survive the slice. -/
theorem c2_counterexample :
    getQuestionsWithConfidence 0 zeroEmbedSim sampleStore10 "alpha" 1 10 ≠
      getQuestionsWithConfidence 1 zeroEmbedSim sampleStore10 "alpha" 1 10 ∧
    sliceExtractedSkills 0 sampleNames10 ≠ sliceExtractedSkills 2 sampleNames10 := by
  decide

/-- Claim C2 (amended): the pipeline is deterministic only relative to the
`Math.random()` draws. With the draws fixed the outputs are functions of the input,
the collaborator responses, and the store; the draws alone set the number of
`source:"existing"` entries to `min (r + 2) (min 50 stored)` and the number of
extracted skills processed to `min (r' + 8) extracted`, so runs differing only in a
draw differ in those counts. -/
theorem c2_amended (r r' : Nat) (embedSim : String → StoredQuestion → ℚ)
    (store : List StoredQuestion) (skillName : String) (skillId : Int) (limit : Nat)
    (skills : List String) :
    ((getQuestionsWithConfidence r embedSim store skillName skillId limit).filter
        (fun e => decide (e.source = QSource.existing))).length =
      min (existingCountOf r)
        (min 50 ((store.filter (fun q => decide (q.skillId = skillId))).length)) ∧
    (sliceExtractedSkills r' skills).length = min (r' + 8) skills.length := by
  constructor
  · rw [filter_existing_gqwc, length_selectedExistingEntries]
  · simp [sliceExtractedSkills, List.length_take]

/-- Claim C1 (counterexample): with ten questions stored under the skill (at least
`targetCount = 10`), resolution still returns eight `source:"generated"` entries
(draw 0, `existingCount = 2`) instead of only `"existing"` ones, and
`processSkillQuestions` still issues a generation call instead of zero. -/
theorem c1_counterexample :
    ((getQuestionsWithConfidence 0 zeroEmbedSim sampleStore10 "alpha" 1 10).filter
        (fun e => decide (e.source = QSource.generated))).length = 8 ∧
    processSkillGenerationCalls sampleStore10 1 = 1 := by
  decide

/-- Claim C1 (amended): even when the store holds at least `targetCount = 10`
questions under the skill, `getQuestionsWithConfidence` tags only the random
`r + 2 ∈ [2, 7]` first entries `"existing"` and fills the remaining
`10 - (r + 2) ≥ 3` slots with `"generated"` entries, on every call; and
`processSkillQuestions` reads at most 7 existing questions, so it always issues
exactly one generation call. -/
theorem c1_amended (r : Nat) (embedSim : String → StoredQuestion → ℚ)
    (store : List StoredQuestion) (skillName : String) (skillId : Int)
    (hr : r ≤ 5)
    (havail : 10 ≤ (store.filter (fun q => decide (q.skillId = skillId))).length) :
    ((getQuestionsWithConfidence r embedSim store skillName skillId 10).filter
        (fun e => decide (e.source = QSource.existing))).length = existingCountOf r ∧
    ((getQuestionsWithConfidence r embedSim store skillName skillId 10).filter
        (fun e => decide (e.source = QSource.generated))).length = 10 - existingCountOf r ∧
    ((getQuestionsWithConfidence r embedSim store skillName skillId 10).filter
        (fun e => decide (e.source = QSource.generated))) ≠ [] ∧
    processSkillGenerationCalls store skillId = 1 := by
  have h1 := length_selectedExistingEntries r store skillId
  have he : (selectedExistingEntries r store skillId).length = existingCountOf r := by
    rw [h1]; unfold existingCountOf; omega
  refine ⟨?_, ?_, ?_, ?_⟩
  · rw [filter_existing_gqwc, he]
  · rw [filter_generated_gqwc, List.length_append,
      length_tier2_add_placeholder, he]
  · rw [filter_generated_gqwc]
    have h2 := length_tier2_add_placeholder r embedSim store skillName skillId 10
    rw [he] at h2
    intro hnil
    have : (tier2Entries r embedSim store skillName skillId 10
        ++ placeholderEntries r embedSim store skillName skillId 10).length = 0 := by
      rw [hnil]; rfl
    rw [List.length_append] at this
    unfold existingCountOf at h2
    omega
  · unfold processSkillGenerationCalls processSkillNeedToGenerate processSkillExisting
    have h7 : ((store.filter (fun q => decide (q.skillId = skillId))).take 7).length = 7 := by
      rw [List.length_take]; omega
    rw [h7]
    decide

/-- Claim C1 (witness): the amended statement instantiated at a store with ten
questions under skill 1 and draw 0. -/
theorem c1_amended_witness :
    ((getQuestionsWithConfidence 0 zeroEmbedSim sampleStore10 "alpha" 1 10).filter
        (fun e => decide (e.source = QSource.existing))).length = existingCountOf 0 ∧
    ((getQuestionsWithConfidence 0 zeroEmbedSim sampleStore10 "alpha" 1 10).filter
        (fun e => decide (e.source = QSource.generated))).length = 10 - existingCountOf 0 ∧
    ((getQuestionsWithConfidence 0 zeroEmbedSim sampleStore10 "alpha" 1 10).filter
        (fun e => decide (e.source = QSource.generated))) ≠ [] ∧
    processSkillGenerationCalls sampleStore10 1 = 1 :=
  c1_amended 0 zeroEmbedSim sampleStore10 "alpha" 1 (by decide) (by decide)

/-- Claim C3 (counterexample): the tier-2 entry drawn from skill 2's store while
resolving skill 1 is returned with `source:"generated"` and `needsGeneration:true`,
not `source:"similar"` as the claim states; no entry of the call is ever tagged
`"similar"`. -/
theorem c3_counterexample :
    tier2Entries 0 highEmbedSim crossSkillStore "alpha" 1 5 =
      [{ id := 2, text := "b", skillId := 2, skillName := "beta", similarity := 19/20,
         needsGeneration := true, source := QSource.generated }] ∧
    (getQuestionsWithConfidence 0 highEmbedSim crossSkillStore "alpha" 1 5).filter
        (fun e => decide (e.source = QSource.similar)) = [] := by
  decide

/-- Claim C3 (amended): every tier-2 entry comes from a question stored under a
different skill than the queried one (the same-skill exclusion holds) and carries
its measured embedding similarity, but it is tagged `source:"generated"` with
`needsGeneration:true`, not `source:"similar"`. -/
theorem c3_amended (r : Nat) (embedSim : String → StoredQuestion → ℚ)
    (store : List StoredQuestion) (skillName : String) (skillId : Int) (limit : Nat)
    (e : QuestionWithConfidence)
    (h : e ∈ tier2Entries r embedSim store skillName skillId limit) :
    e.source = QSource.generated ∧ e.needsGeneration = true ∧ e.skillId ≠ skillId ∧
    ∃ q ∈ store, q.skillId ≠ skillId ∧ e.id = q.id ∧ e.text = q.text ∧
      e.similarity = embedSim (searchQueryFor skillName) q := by
  simp only [tier2Entries] at h
  split at h
  case isFalse => simp at h
  obtain ⟨sq, hsq, rfl⟩ := List.mem_map.1 h
  have hsq' : sq ∈ uniqueVectorQuestions embedSim store skillName skillId :=
    List.mem_of_mem_take hsq
  unfold uniqueVectorQuestions at hsq'
  obtain ⟨hmem, hneq⟩ := List.mem_filter.1 hsq'
  unfold searchQuestionsBySkill searchSimilarQuestions at hmem
  have hmem2 := List.mem_of_mem_take hmem
  rw [mem_sortDescBySim] at hmem2
  obtain ⟨hmem3, -⟩ := List.mem_filter.1 hmem2
  obtain ⟨q, hq, rfl⟩ := List.mem_map.1 hmem3
  refine ⟨rfl, rfl, by simpa using hneq, q, hq, by simpa using hneq, rfl, rfl, rfl⟩

/-- Claim C3 (witness): the amended statement instantiated at the concrete tier-2
entry of `c3_counterexample`'s scenario. -/
theorem c3_amended_witness :
    ({ id := 2, text := "b", skillId := 2, skillName := "beta", similarity := 19/20,
       needsGeneration := true, source := QSource.generated } : QuestionWithConfidence) ∈
      tier2Entries 0 highEmbedSim crossSkillStore "alpha" 1 5 ∧
    (({ id := 2, text := "b", skillId := 2, skillName := "beta", similarity := 19/20,
        needsGeneration := true, source := QSource.generated } :
          QuestionWithConfidence).source = QSource.generated ∧
      ({ id := 2, text := "b", skillId := 2, skillName := "beta", similarity := 19/20,
         needsGeneration := true, source := QSource.generated } :
           QuestionWithConfidence).needsGeneration = true ∧
      ({ id := 2, text := "b", skillId := 2, skillName := "beta", similarity := 19/20,
         needsGeneration := true, source := QSource.generated } :
           QuestionWithConfidence).skillId ≠ 1 ∧
      ∃ q ∈ crossSkillStore, q.skillId ≠ 1 ∧
        ({ id := 2, text := "b", skillId := 2, skillName := "beta", similarity := 19/20,
           needsGeneration := true, source := QSource.generated } :
             QuestionWithConfidence).id = q.id ∧
        ({ id := 2, text := "b", skillId := 2, skillName := "beta", similarity := 19/20,
           needsGeneration := true, source := QSource.generated } :
             QuestionWithConfidence).text = q.text ∧
        ({ id := 2, text := "b", skillId := 2, skillName := "beta", similarity := 19/20,
           needsGeneration := true, source := QSource.generated } :
             QuestionWithConfidence).similarity =
          highEmbedSim (searchQueryFor "alpha") q) :=
  ⟨by decide, c3_amended 0 highEmbedSim crossSkillStore "alpha" 1 5 _ (by decide)⟩

/-- Claim C5 (counterexample): the analyze route reuses a stored JD's skill set as
soon as embedding similarity clears its bar (0.96 here), with no extracted-skill
validation at all — even though an extracted skill like "Haskell" has no ≥ 0.9
text/alias match with the stored skill "Java", where the claim demands reuse be
rejected. -/
theorem c5_counterexample :
    analyzeRouteSkillSet [{ id := 1, similarity := 24/25 }] ["Java"] = some ["Java"] ∧
    calculateTextSimilarityRoute "Haskell" "Java" < 9/10 := by
  decide

/-- Claim C5 (amended): in the background process route (`startAnalysis`), when the
top stored JD clears the 0.95 embedding bar but no freshly extracted skill
text/alias-matches any skill of that stored JD at ≥ 0.9, reuse is rejected and the
caller proceeds with full extraction; the analyze route, by contrast, reuses the
stored skill set whenever the top similarity is ≥ 0.9, without any extracted-skill
validation. -/
theorem c5_amended (top : SimilarJD) (rest : List SimilarJD)
    (extractedSkills existingSkillNames : List String)
    (hbar : (19 : ℚ)/20 ≤ top.similarity)
    (hnomatch : ∀ e ∈ extractedSkills, ∀ ex ∈ existingSkillNames,
      calculateTextSimilarityRoute e ex < 9/10) :
    decideReuse (top :: rest) extractedSkills existingSkillNames = false ∧
    startAnalysisSkillsPath (top :: rest) extractedSkills existingSkillNames =
      SkillsSource.fullExtraction := by
  have hmatch : skillsMatchCheck extractedSkills existingSkillNames = false := by
    unfold skillsMatchCheck
    rw [List.any_eq_false]
    intro e he
    rw [Bool.not_eq_true, List.any_eq_false]
    intro ex hex
    simpa using not_le.2 (hnomatch e he ex hex)
  have hreuse : decideReuse (top :: rest) extractedSkills existingSkillNames = false := by
    simp [decideReuse, hmatch]
  exact ⟨hreuse, by simp [startAnalysisSkillsPath, hreuse]⟩

/-- Claim C5 (witness): the amended statement instantiated at a stored JD with
similarity 0.96, extracted skill "Haskell", stored skill "Java". -/
theorem c5_amended_witness :
    ((19 : ℚ)/20 ≤ ({ id := 1, similarity := 24/25 } : SimilarJD).similarity) ∧
    decideReuse [{ id := 1, similarity := 24/25 }] ["Haskell"] ["Java"] = false ∧
    startAnalysisSkillsPath [{ id := 1, similarity := 24/25 }] ["Haskell"] ["Java"] =
      SkillsSource.fullExtraction :=
  ⟨by decide,
    (c5_amended { id := 1, similarity := 24/25 } [] ["Haskell"] ["Java"]
      (by decide) (by decide)).1,
    (c5_amended { id := 1, similarity := 24/25 } [] ["Haskell"] ["Java"]
      (by decide) (by decide)).2⟩

theorem createOrFind_isSome (extracted : String) (st : MatcherState) :
    (createOrFind extracted st).1.isSome := by
  unfold createOrFind
  split
  · rename_i h
    cases hf : st.skills.find? (fun sk => decide (sk.name = extracted)) with
    | some sk => simp [hf]
    | none =>
      exfalso
      rw [List.any_eq_true] at h
      obtain ⟨sk, hsk, hname⟩ := h
      rw [List.find?_eq_none] at hf
      exact absurd hname (by simpa using hf sk hsk)
  · simp

theorem acceptOrCreate_isSome (b2 : Option SkillWithConfidence) (extracted : String)
    (st : MatcherState) : (acceptOrCreate b2 extracted st).1.isSome := by
  cases b2 with
  | none => exact createOrFind_isSome _ _
  | some b =>
    unfold acceptOrCreate
    split
    · split
      · rfl
      · exact createOrFind_isSome _ _
    · exact createOrFind_isSome _ _

theorem matchOne_isSome (ai : String → Option (List String)) (skillSim : String → String → ℚ)
    (extracted : String) (existingSkills : List SkillRow) (st : MatcherState) :
    (matchOne ai skillSim extracted existingSkills st).1.isSome :=
  acceptOrCreate_isSome _ extracted _

theorem matchSkillsGo_length (ai : String → Option (List String))
    (skillSim : String → String → ℚ) (existingSkills : List SkillRow)
    (names : List String) (st : MatcherState) :
    (matchSkillsGo ai skillSim existingSkills names st).1.length = names.length := by
  induction names generalizing st with
  | nil => rfl
  | cons n ns ih =>
    obtain ⟨v, hv⟩ := Option.isSome_iff_exists.1
      (matchOne_isSome ai skillSim n existingSkills st)
    simp [matchSkillsGo, hv, ih]

theorem matchSkillsGo_append (ai : String → Option (List String))
    (skillSim : String → String → ℚ) (existingSkills : List SkillRow)
    (names1 names2 : List String) (st : MatcherState) :
    matchSkillsGo ai skillSim existingSkills (names1 ++ names2) st =
      ((matchSkillsGo ai skillSim existingSkills names1 st).1
          ++ (matchSkillsGo ai skillSim existingSkills names2
              (matchSkillsGo ai skillSim existingSkills names1 st).2).1,
        (matchSkillsGo ai skillSim existingSkills names2
            (matchSkillsGo ai skillSim existingSkills names1 st).2).2) := by
  induction names1 generalizing st with
  | nil => simp [matchSkillsGo]
  | cons n ns ih =>
    simp only [List.cons_append, matchSkillsGo, List.append_eq]
    rw [ih]
    simp [List.append_assoc]

/-- Claim C10: `searchSkillsForJobDescription` returns exactly one output per input
name (the create-or-reread fallback always produces a row, so the skip branch never
fires), and outputs appear in input order: the batch over `names1 ++ names2` is the
batch over `names1` followed, state threaded, by the batch over `names2`. -/
theorem c10_one_output_per_input (ai : String → Option (List String))
    (skillSim : String → String → ℚ) (names names1 names2 : List String)
    (st st0 : MatcherState) (existingSkills : List SkillRow) :
    (searchSkillsForJobDescription ai skillSim names st).1.length = names.length ∧
    matchSkillsGo ai skillSim existingSkills (names1 ++ names2) st0 =
      ((matchSkillsGo ai skillSim existingSkills names1 st0).1
          ++ (matchSkillsGo ai skillSim existingSkills names2
              (matchSkillsGo ai skillSim existingSkills names1 st0).2).1,
        (matchSkillsGo ai skillSim existingSkills names2
            (matchSkillsGo ai skillSim existingSkills names1 st0).2).2) :=
  ⟨matchSkillsGo_length ai skillSim st.skills names st,
   matchSkillsGo_append ai skillSim existingSkills names1 names2 st0⟩

theorem addAliasRow_frame (i : Nat) (nn a : String) (st : MatcherState) :
    (addAliasRow i nn a st).skills = st.skills ∧
    (addAliasRow i nn a st).nextId = st.nextId ∧
    (addAliasRow i nn a st).cache = st.cache := by
  simp only [addAliasRow]
  split
  · split
    · exact ⟨rfl, rfl, rfl⟩
    · exact ⟨rfl, rfl, rfl⟩
  · exact ⟨rfl, rfl, rfl⟩

theorem foldl_addAliasRow_frame (i : Nat) (nn : String) (al : List String)
    (st : MatcherState) :
    (al.foldl (fun acc a => addAliasRow i nn a acc) st).skills = st.skills ∧
    (al.foldl (fun acc a => addAliasRow i nn a acc) st).nextId = st.nextId ∧
    (al.foldl (fun acc a => addAliasRow i nn a acc) st).cache = st.cache := by
  induction al generalizing st with
  | nil => exact ⟨rfl, rfl, rfl⟩
  | cons a as ih =>
    simp only [List.foldl_cons]
    obtain ⟨h1, h2, h3⟩ := addAliasRow_frame i nn a st
    obtain ⟨g1, g2, g3⟩ := ih (addAliasRow i nn a st)
    exact ⟨g1.trans h1, g2.trans h2, g3.trans h3⟩

theorem storeSkillAliases_state (name : String) (al : List String) (st : MatcherState) :
    ((storeSkillAliases name al st).skills = st.skills ∧
     (storeSkillAliases name al st).nextId = st.nextId ∧
     (storeSkillAliases name al st).cache = st.cache) ∨
    ((storeSkillAliases name al st).skills = st.skills ++ [{ id := st.nextId, name := name }] ∧
     (storeSkillAliases name al st).nextId = st.nextId + 1 ∧
     (storeSkillAliases name al st).cache = st.cache) := by
  unfold storeSkillAliases
  cases hf : st.skills.find? (fun sk => insensitiveEq sk.name name) with
  | some sk =>
    left
    exact foldl_addAliasRow_frame sk.id (normalizeSkillName sk.name) al st
  | none =>
    right
    obtain ⟨g1, g2, g3⟩ := foldl_addAliasRow_frame st.nextId (normalizeSkillName name) al
      { st with skills := st.skills ++ [{ id := st.nextId, name := name }],
                nextId := st.nextId + 1 }
    exact ⟨g1, g2, g3⟩

theorem cacheLookup_append_self (c : List (String × List String)) (k : String)
    (v : List String) : (cacheLookup (c ++ [(k, v)]) k).isSome := by
  unfold cacheLookup
  induction c with
  | nil => simp
  | cons kv c ih =>
    by_cases h : kv.1 = k
    · simp [List.find?_cons, h]
    · simpa [List.find?_cons, h] using ih

theorem getSkillAliasesLib_cacheHit (ai : String → Option (List String)) (s : String)
    (st : MatcherState) (al : List String)
    (h : cacheLookup st.cache (normalizeSkillName s) = some al) :
    getSkillAliasesLib ai s st = (al, st) := by
  simp only [getSkillAliasesLib, h]

theorem getSkillAliasesLib_skills (ai : String → Option (List String)) (s : String)
    (st : MatcherState) :
    ((getSkillAliasesLib ai s st).2.skills = st.skills ∧
     (getSkillAliasesLib ai s st).2.nextId = st.nextId) ∨
    ((getSkillAliasesLib ai s st).2.skills = st.skills ++ [{ id := st.nextId, name := s }] ∧
     (getSkillAliasesLib ai s st).2.nextId = st.nextId + 1) := by
  by_cases hcs : (cacheLookup st.cache (normalizeSkillName s)).isSome
  · obtain ⟨al, hal⟩ := Option.isSome_iff_exists.1 hcs
    rw [getSkillAliasesLib_cacheHit ai s st al hal]
    exact Or.inl ⟨rfl, rfl⟩
  · have hc' := Option.not_isSome_iff_eq_none.1 hcs
    cases hdb : dbAliasLookup st s (normalizeSkillName s) with
    | some sk =>
      by_cases hlen : 0 < (List.filter (fun ar => decide (ar.skillId = sk.id))
          st.aliasRows).length
      · left
        constructor <;> simp [getSkillAliasesLib, hc', hdb, hlen]
      · cases hai : ai s with
        | some aiList =>
          rcases storeSkillAliases_state s
              (normalizeSkillName s :: trimStr s ::
                List.map normalizeSkillName
                  (List.filter (fun a => decide (0 < (trimStr a).length)) aiList)) st with
            ⟨g1, g2, g3⟩ | ⟨g1, g2, g3⟩
          · left
            constructor <;> simp [getSkillAliasesLib, hc', hdb, hlen, hai, g1, g2]
          · right
            constructor <;> simp [getSkillAliasesLib, hc', hdb, hlen, hai, g1, g2]
        | none =>
          left
          constructor <;> simp [getSkillAliasesLib, hc', hdb, hlen, hai]
    | none =>
      cases hai : ai s with
      | some aiList =>
        rcases storeSkillAliases_state s
            (normalizeSkillName s :: trimStr s ::
              List.map normalizeSkillName
                (List.filter (fun a => decide (0 < (trimStr a).length)) aiList)) st with
          ⟨g1, g2, g3⟩ | ⟨g1, g2, g3⟩
        · left
          constructor <;> simp [getSkillAliasesLib, hc', hdb, hai, g1, g2]
        · right
          constructor <;> simp [getSkillAliasesLib, hc', hdb, hai, g1, g2]
      | none =>
        left
        constructor <;> simp [getSkillAliasesLib, hc', hdb, hai]

theorem getSkillAliasesLib_cacheKey (ai : String → Option (List String)) (s : String)
    (st : MatcherState) :
    (cacheLookup (getSkillAliasesLib ai s st).2.cache (normalizeSkillName s)).isSome := by
  by_cases hcs : (cacheLookup st.cache (normalizeSkillName s)).isSome
  · obtain ⟨al, hal⟩ := Option.isSome_iff_exists.1 hcs
    rw [getSkillAliasesLib_cacheHit ai s st al hal]
    exact hcs
  · have hc' := Option.not_isSome_iff_eq_none.1 hcs
    cases hdb : dbAliasLookup st s (normalizeSkillName s) with
    | some sk =>
      by_cases hlen : 0 < (List.filter (fun ar => decide (ar.skillId = sk.id))
          st.aliasRows).length
      · simp only [getSkillAliasesLib, hc']
        simp [hdb, hlen]
        exact cacheLookup_append_self _ _ _
      · cases hai : ai s with
        | some aiList =>
          simp only [getSkillAliasesLib, hc']
          simp [hdb, hlen, hai]
          exact cacheLookup_append_self _ _ _
        | none =>
          simp only [getSkillAliasesLib, hc']
          simp [hdb, hlen, hai]
          exact cacheLookup_append_self _ _ _
    | none =>
      cases hai : ai s with
      | some aiList =>
        simp only [getSkillAliasesLib, hc']
        simp [hdb, hai]
        exact cacheLookup_append_self _ _ _
      | none =>
        simp only [getSkillAliasesLib, hc']
        simp [hdb, hai]
        exact cacheLookup_append_self _ _ _

theorem calcTextSimLib_preserves (ai : String → Option (List String))
    (extracted exName : String) (orig st : MatcherState)
    (h : TextPassInv orig extracted st) :
    TextPassInv orig extracted (calculateTextSimilarityLib ai extracted exName st).2 := by
  unfold calculateTextSimilarityLib
  split
  · exact h
  · rcases h with ⟨hs, hn⟩ | ⟨hs, hc⟩
    · have hck := getSkillAliasesLib_cacheKey ai extracted st
      rcases getSkillAliasesLib_skills ai extracted st with ⟨h1, h2⟩ | ⟨h1, h2⟩
      · exact Or.inl ⟨h1.trans hs, h2.trans hn⟩
      · refine Or.inr ⟨?_, hck⟩
        rw [h1, hs, hn]
    · obtain ⟨al, hal⟩ := Option.isSome_iff_exists.1 hc
      rw [getSkillAliasesLib_cacheHit ai extracted st al hal]
      exact Or.inr ⟨hs, hc⟩

theorem textPassStep_state (ai : String → Option (List String)) (extracted : String)
    (acc : Option SkillWithConfidence × MatcherState) (sk : SkillRow) :
    (textPassStep ai extracted acc sk).2 =
      (calculateTextSimilarityLib ai extracted sk.name acc.2).2 := by
  rcases hb : acc.1 with - | b
  · simp only [textPassStep, hb]
    split <;> rfl
  · simp only [textPassStep, hb]
    split <;> rfl

theorem textPass_state (ai : String → Option (List String)) (extracted : String)
    (existingSkills : List SkillRow) (st : MatcherState) :
    (textPass ai extracted existingSkills st).2.skills = st.skills ∨
    (textPass ai extracted existingSkills st).2.skills =
      st.skills ++ [{ id := st.nextId, name := extracted }] := by
  suffices h : ∀ (l : List SkillRow) (acc : Option SkillWithConfidence × MatcherState),
      TextPassInv st extracted acc.2 →
      TextPassInv st extracted (l.foldl (textPassStep ai extracted) acc).2 by
    rcases h existingSkills (none, st) (Or.inl ⟨rfl, rfl⟩) with ⟨hs, -⟩ | ⟨hs, -⟩
    · exact Or.inl hs
    · exact Or.inr hs
  intro l
  induction l with
  | nil => intro acc h; exact h
  | cons sk l ih =>
    intro acc h
    refine ih _ ?_
    rw [textPassStep_state]
    exact calcTextSimLib_preserves ai extracted sk.name st acc.2 h

theorem createOrFind_source (e : String) (st : MatcherState) (swc : SkillWithConfidence)
    (h : (createOrFind e st).1 = some swc) : swc.source = SkSource.extracted := by
  unfold createOrFind at h
  split at h
  · split at h
    · obtain rfl := Option.some_injective _ h.symm
      rfl
    · exact Option.noConfusion h
  · obtain rfl := Option.some_injective _ h.symm
    rfl

theorem acceptOrCreate_existing_state (b2 : Option SkillWithConfidence) (e : String)
    (st : MatcherState) (swc : SkillWithConfidence)
    (h : (acceptOrCreate b2 e st).1 = some swc) (hsrc : swc.source = SkSource.existing) :
    (acceptOrCreate b2 e st).2 = st := by
  cases b2 with
  | none =>
    have hx := createOrFind_source e st swc h
    rw [hx] at hsrc
    exact absurd hsrc (by decide)
  | some b =>
    have h' : (if (4 : ℚ)/5 ≤ b.confidence then ((some b : Option SkillWithConfidence), st)
        else createOrFind e st).1 = some swc := h
    show (if (4 : ℚ)/5 ≤ b.confidence then ((some b : Option SkillWithConfidence), st)
        else createOrFind e st).2 = st
    by_cases hconf : (4 : ℚ)/5 ≤ b.confidence
    · rw [if_pos hconf]
    · rw [if_neg hconf]
      rw [if_neg hconf] at h'
      have hx := createOrFind_source e st swc h'
      rw [hx] at hsrc
      exact absurd hsrc (by decide)

/-- Claim C9 (counterexample): matching extracted name "react" against a catalog
holding only "ReactJS" resolves to the existing skill (confidence 0.95, the accept
branch), yet the matching step creates a new Skill row "react" as a side effect of
AI alias generation (`storeSkillAliases` finds no skill named "react" and creates
one), so the set of Skill rows changes. -/
theorem c9_counterexample :
    (matchOne reactAliasAI zeroSkillSim "react" [{ id := 1, name := "ReactJS" }]
        reactState).1 =
      some { id := 1, name := "ReactJS", confidence := 19/20, source := SkSource.existing } ∧
    (matchOne reactAliasAI zeroSkillSim "react" [{ id := 1, name := "ReactJS" }]
        reactState).2.skills =
      [{ id := 1, name := "ReactJS" }, { id := 2, name := "react" }] ∧
    (matchOne reactAliasAI zeroSkillSim "react" [{ id := 1, name := "ReactJS" }]
        reactState).2.skills ≠ reactState.skills := by
  decide

/-- Claim C9 (amended): when the matcher resolves an extracted name to an existing
skill (accept branch, `source:"existing"`), the whole matching step leaves the set
of Skill rows unchanged OR extends it by exactly one row named after the extracted
name — the latter exactly when alias resolution fell through to AI generation and
`storeSkillAliases` created the row; no other Skill row is ever created by the
matching step. -/
theorem c9_amended (ai : String → Option (List String)) (skillSim : String → String → ℚ)
    (extracted : String) (existingSkills : List SkillRow) (st : MatcherState)
    (swc : SkillWithConfidence)
    (hout : (matchOne ai skillSim extracted existingSkills st).1 = some swc)
    (hsrc : swc.source = SkSource.existing) :
    (matchOne ai skillSim extracted existingSkills st).2.skills = st.skills ∨
    (matchOne ai skillSim extracted existingSkills st).2.skills =
      st.skills ++ [{ id := st.nextId, name := extracted }] := by
  have heq : (matchOne ai skillSim extracted existingSkills st).2 =
      (textPass ai extracted existingSkills st).2 :=
    acceptOrCreate_existing_state _ extracted _ swc hout hsrc
  rw [heq]
  exact textPass_state ai extracted existingSkills st

/-- Claim C9 (witness): the amended statement instantiated at the "react" vs
"ReactJS" scenario, where the second disjunct (one new row named "react") holds. -/
theorem c9_amended_witness :
    (matchOne reactAliasAI zeroSkillSim "react" [{ id := 1, name := "ReactJS" }]
        reactState).1 =
      some { id := 1, name := "ReactJS", confidence := 19/20, source := SkSource.existing } ∧
    ({ id := 1, name := "ReactJS", confidence := 19/20,
       source := SkSource.existing } : SkillWithConfidence).source = SkSource.existing ∧
    ((matchOne reactAliasAI zeroSkillSim "react" [{ id := 1, name := "ReactJS" }]
          reactState).2.skills = reactState.skills ∨
      (matchOne reactAliasAI zeroSkillSim "react" [{ id := 1, name := "ReactJS" }]
          reactState).2.skills =
        reactState.skills ++ [{ id := reactState.nextId, name := "react" }]) :=
  ⟨by decide, by decide,
    c9_amended reactAliasAI zeroSkillSim "react" [{ id := 1, name := "ReactJS" }]
      reactState reactBest (by decide) (by decide)⟩

set_option maxRecDepth 4000 in
theorem not_key_aliases (n : String) (h : isFamilyKey n = false) :
    routeAliasesOfNorm n = [n] := by
  have hk0 : n ≠ "react" := fun hh => by rw [hh] at h; exact absurd h (by decide)
  have hs0 : ("react" : String) ≠ n := Ne.symm hk0
  have hb0 : (("react" : String) == n) = false := beq_eq_false_iff_ne.2 hs0
  have hc0 : ((n : String) == "react") = false := beq_eq_false_iff_ne.2 hk0
  have hk1 : n ≠ "reactjs" := fun hh => by rw [hh] at h; exact absurd h (by decide)
  have hs1 : ("reactjs" : String) ≠ n := Ne.symm hk1
  have hb1 : (("reactjs" : String) == n) = false := beq_eq_false_iff_ne.2 hs1
  have hc1 : ((n : String) == "reactjs") = false := beq_eq_false_iff_ne.2 hk1
  have hk2 : n ≠ "react js" := fun hh => by rw [hh] at h; exact absurd h (by decide)
  have hs2 : ("react js" : String) ≠ n := Ne.symm hk2
  have hb2 : (("react js" : String) == n) = false := beq_eq_false_iff_ne.2 hs2
  have hc2 : ((n : String) == "react js") = false := beq_eq_false_iff_ne.2 hk2
  have hk3 : n ≠ "react.js" := fun hh => by rw [hh] at h; exact absurd h (by decide)
  have hs3 : ("react.js" : String) ≠ n := Ne.symm hk3
  have hb3 : (("react.js" : String) == n) = false := beq_eq_false_iff_ne.2 hs3
  have hc3 : ((n : String) == "react.js") = false := beq_eq_false_iff_ne.2 hk3
  have hk4 : n ≠ "nextjs" := fun hh => by rw [hh] at h; exact absurd h (by decide)
  have hs4 : ("nextjs" : String) ≠ n := Ne.symm hk4
  have hb4 : (("nextjs" : String) == n) = false := beq_eq_false_iff_ne.2 hs4
  have hc4 : ((n : String) == "nextjs") = false := beq_eq_false_iff_ne.2 hk4
  have hk5 : n ≠ "next js" := fun hh => by rw [hh] at h; exact absurd h (by decide)
  have hs5 : ("next js" : String) ≠ n := Ne.symm hk5
  have hb5 : (("next js" : String) == n) = false := beq_eq_false_iff_ne.2 hs5
  have hc5 : ((n : String) == "next js") = false := beq_eq_false_iff_ne.2 hk5
  have hk6 : n ≠ "next.js" := fun hh => by rw [hh] at h; exact absurd h (by decide)
  have hs6 : ("next.js" : String) ≠ n := Ne.symm hk6
  have hb6 : (("next.js" : String) == n) = false := beq_eq_false_iff_ne.2 hs6
  have hc6 : ((n : String) == "next.js") = false := beq_eq_false_iff_ne.2 hk6
  have hk7 : n ≠ "next" := fun hh => by rw [hh] at h; exact absurd h (by decide)
  have hs7 : ("next" : String) ≠ n := Ne.symm hk7
  have hb7 : (("next" : String) == n) = false := beq_eq_false_iff_ne.2 hs7
  have hc7 : ((n : String) == "next") = false := beq_eq_false_iff_ne.2 hk7
  have hk8 : n ≠ "nodejs" := fun hh => by rw [hh] at h; exact absurd h (by decide)
  have hs8 : ("nodejs" : String) ≠ n := Ne.symm hk8
  have hb8 : (("nodejs" : String) == n) = false := beq_eq_false_iff_ne.2 hs8
  have hc8 : ((n : String) == "nodejs") = false := beq_eq_false_iff_ne.2 hk8
  have hk9 : n ≠ "node js" := fun hh => by rw [hh] at h; exact absurd h (by decide)
  have hs9 : ("node js" : String) ≠ n := Ne.symm hk9
  have hb9 : (("node js" : String) == n) = false := beq_eq_false_iff_ne.2 hs9
  have hc9 : ((n : String) == "node js") = false := beq_eq_false_iff_ne.2 hk9
  have hk10 : n ≠ "node.js" := fun hh => by rw [hh] at h; exact absurd h (by decide)
  have hs10 : ("node.js" : String) ≠ n := Ne.symm hk10
  have hb10 : (("node.js" : String) == n) = false := beq_eq_false_iff_ne.2 hs10
  have hc10 : ((n : String) == "node.js") = false := beq_eq_false_iff_ne.2 hk10
  have hk11 : n ≠ "node" := fun hh => by rw [hh] at h; exact absurd h (by decide)
  have hs11 : ("node" : String) ≠ n := Ne.symm hk11
  have hb11 : (("node" : String) == n) = false := beq_eq_false_iff_ne.2 hs11
  have hc11 : ((n : String) == "node") = false := beq_eq_false_iff_ne.2 hk11
  simp [routeAliasesOfNorm, aliasMappings, dedupKeepFirst, List.lookup, hk0, hs0, hb0, hc0, hk1, hs1, hb1, hc1, hk2, hs2, hb2, hc2, hk3, hs3, hb3, hc3, hk4, hs4, hb4, hc4, hk5, hs5, hb5, hc5, hk6, hs6, hb6, hc6, hk7, hs7, hb7, hc7, hk8, hs8, hb8, hc8, hk9, hs9, hb9, hc9, hk10, hs10, hb10, hc10, hk11, hs11, hb11, hc11]

theorem isFamilyKey_cases (n : String) (h : isFamilyKey n = true) :
    n = "react" ∨ n = "reactjs" ∨ n = "react js" ∨ n = "react.js" ∨
    n = "nextjs" ∨ n = "next js" ∨ n = "next.js" ∨ n = "next" ∨
    n = "nodejs" ∨ n = "node js" ∨ n = "node.js" ∨ n = "node" := by
  simp only [isFamilyKey, List.any_eq_true, decide_eq_true_eq] at h
  obtain ⟨kv, hkv, heq⟩ := h
  rw [← heq]
  simp only [aliasMappings, List.mem_cons, List.mem_singleton, List.not_mem_nil,
    or_false] at hkv
  rcases hkv with rfl|rfl|rfl|rfl|rfl|rfl|rfl|rfl|rfl|rfl|rfl|rfl
  all_goals simp

theorem key_aliases_keys (n : String) (h : isFamilyKey n = true) :
    ∀ a ∈ routeAliasesOfNorm n, isFamilyKey a = true := by
  rcases isFamilyKey_cases n h with rfl|rfl|rfl|rfl|rfl|rfl|rfl|rfl|rfl|rfl|rfl|rfl <;> decide

theorem anyContainsSingleton (l : List String) (x : String) :
    (l.any fun a => ([x].contains a)) = l.contains x := by
  rw [Bool.eq_iff_iff]
  simp only [List.any_eq_true, List.contains_iff_exists_mem_beq, List.mem_singleton,
    beq_iff_eq]
  constructor
  · rintro ⟨a, ha, a', ha', haa⟩
    exact ⟨a, ha, (haa.trans ha').symm⟩
  · rintro ⟨a, ha, hxa⟩
    exact ⟨a, ha, x, rfl, hxa.symm⟩

theorem crossEqMem (n1 n2 : String) :
    ((routeAliasesOfNorm n1).any fun a1 => (routeAliasesOfNorm n2).contains a1) =
      (routeAliasesOfNorm n1).contains n2 := by
  by_cases k2 : isFamilyKey n2
  · by_cases k1 : isFamilyKey n1
    · rcases isFamilyKey_cases n1 k1 with rfl|rfl|rfl|rfl|rfl|rfl|rfl|rfl|rfl|rfl|rfl|rfl <;>
        rcases isFamilyKey_cases n2 k2 with rfl|rfl|rfl|rfl|rfl|rfl|rfl|rfl|rfl|rfl|rfl|rfl <;> decide
    · have hmem := key_aliases_keys n2 k2
      rw [not_key_aliases n1 (by simpa using k1)]
      simp only [List.any_cons, List.any_nil, Bool.or_false, List.contains_cons,
        List.contains_nil]
      rw [Bool.eq_iff_iff]
      constructor
      · intro hc
        exfalso
        have : n1 ∈ routeAliasesOfNorm n2 := by
          simpa [List.contains_iff_exists_mem_beq, beq_iff_eq] using hc
        have := hmem n1 this
        rw [this] at k1
        exact k1 rfl
      · intro hc
        exfalso
        have hn : n2 = n1 := by simpa using hc
        rw [← hn] at k1
        exact absurd k2 (by simp [k1])
  · rw [not_key_aliases n2 (by simpa using k2)]
    exact anyContainsSingleton _ n2

theorem calcRoute_eq_spec (s1 s2 : String) :
    calculateTextSimilarityRoute s1 s2 =
      specTextSimilarity (getSkillAliasesRoute s1) s1 s2 := by
  simp only [calculateTextSimilarityRoute, specTextSimilarity, getSkillAliasesRoute]
  by_cases h : normalizeSkillName s1 = normalizeSkillName s2
  · simp [h]
  · simp only [if_neg h]
    rw [crossEqMem (normalizeSkillName s1) (normalizeSkillName s2)]

theorem string_eq_of_zero_length {t u : String} (ht : t.length = 0) (hu : u.length = 0) :
    t = u := by
  cases t with | mk td =>
  cases u with | mk ud =>
  simp only [String.length] at ht hu
  rw [List.length_eq_zero] at ht hu
  subst ht
  subst hu
  rfl

theorem textSim_lib_vs_spec (a : List String) (s1 s2 : String)
    (hnorm : ∀ al ∈ a, normalizeSkillName al = al) :
    textSimWithAliases a s1 s2 = specTextSimilarity a s1 s2 ∨
    (specTextSimilarity a s1 s2 = 0 ∧ 7/10 ≤ levRatio s1 s2 ∧
     textSimWithAliases a s1 s2 = levRatio s1 s2 * (4/5)) := by
  have halias : (a.any fun al => decide (normalizeSkillName al = normalizeSkillName s2)) =
      a.contains (normalizeSkillName s2) := by
    rw [Bool.eq_iff_iff]
    simp only [List.any_eq_true, decide_eq_true_eq, List.contains_iff_exists_mem_beq,
      beq_iff_eq]
    constructor
    · rintro ⟨al, hal, heq⟩
      exact ⟨al, hal, ((hnorm al hal).symm.trans heq).symm⟩
    · rintro ⟨al, hal, heq⟩
      exact ⟨al, hal, (hnorm al hal).trans heq.symm⟩
  simp only [textSimWithAliases, specTextSimilarity, levRatio, halias]
  by_cases h1 : normalizeSkillName s1 = normalizeSkillName s2
  · simp [h1]
  · by_cases h2 : normalizeSkillName s2 ∈ a
    · simp [h1, h2]
    · by_cases h3 :
        (containsSub (normalizeSkillName s1).data (normalizeSkillName s2).data = true ∨
         containsSub (normalizeSkillName s2).data (normalizeSkillName s1).data = true)
      · simp [h1, h2, h3]
      · by_cases hml : ((normalizeSkillName s1).length = 0 ∧ (normalizeSkillName s2).length = 0)
        · exact absurd (string_eq_of_zero_length hml.1 hml.2) h1
        · by_cases h4 : (7 : ℚ)/10 ≤
              (((normalizeSkillName s1).length ⊔ (normalizeSkillName s2).length -
                  levenshteinDistance (normalizeSkillName s1) (normalizeSkillName s2) : ℕ) : ℚ) /
                (((normalizeSkillName s1).length : ℚ) ⊔ ((normalizeSkillName s2).length : ℚ))
          · simp [h1, h2, h3, hml, h4]
          · simp [h1, h2, h3, hml, h4]

/-- Claim C4 (counterexample): on the pair ("java", "javb") with the minimal alias
set {"java"}, the spec's formula gives 0 ("0 in every other case") but the library's
`calculateTextSimilarity` returns 3/5 through its Levenshtein branch
((4-1)/4 = 0.75 ≥ 0.7, scaled by 0.8); the route handler's copy does return 0. -/
theorem c4_counterexample :
    textSimWithAliases ["java"] "java" "javb" = 3/5 ∧
    specTextSimilarity ["java"] "java" "javb" = 0 ∧
    calculateTextSimilarityRoute "java" "javb" = 0 := by
  decide

/-- Claim C4 (amended): the route handler's `calculateTextSimilarity` computes
exactly the claimed formula — 1.0 on identical normalized forms, 0.95 exactly when
the existing skill's normalized name appears in the extracted skill's alias set,
(shorter/longer)·0.9 on substring containment, else 0 (its cross-product alias
check is equivalent to that membership). The library copy agrees except in the
final case: for normalized alias sets, where the claim says 0 it instead returns
levRatio·0.8 whenever the Levenshtein ratio is ≥ 0.7, and 0 otherwise. -/
theorem c4_amended (s1 s2 : String) (a : List String)
    (hnorm : ∀ al ∈ a, normalizeSkillName al = al) :
    calculateTextSimilarityRoute s1 s2 =
      specTextSimilarity (getSkillAliasesRoute s1) s1 s2 ∧
    (textSimWithAliases a s1 s2 = specTextSimilarity a s1 s2 ∨
     (specTextSimilarity a s1 s2 = 0 ∧ 7/10 ≤ levRatio s1 s2 ∧
      textSimWithAliases a s1 s2 = levRatio s1 s2 * (4/5))) :=
  ⟨calcRoute_eq_spec s1 s2, textSim_lib_vs_spec a s1 s2 hnorm⟩

/-- Claim C4 (witness): the amended statement instantiated at ("java", "javb") with
alias set {"java"} — the Levenshtein disjunct is the one that holds. -/
theorem c4_amended_witness :
    (∀ al ∈ (["java"] : List String), normalizeSkillName al = al) ∧
    (calculateTextSimilarityRoute "java" "javb" =
        specTextSimilarity (getSkillAliasesRoute "java") "java" "javb" ∧
      (textSimWithAliases ["java"] "java" "javb" =
          specTextSimilarity ["java"] "java" "javb" ∨
        (specTextSimilarity ["java"] "java" "javb" = 0 ∧
          7/10 ≤ levRatio "java" "javb" ∧
          textSimWithAliases ["java"] "java" "javb" = levRatio "java" "javb" * (4/5)))) :=
  ⟨by decide, c4_amended "java" "javb" ["java"] (by decide)⟩

end JdVector
